import Mathlib

/-!
Shallow embedding of the Federation & Routing Engine of the oxproxion
repository (src/federation_service.py and src/orchestrator.py), together
with proofs of the spec's testable properties.

Modelling conventions:
* Python floats (confidence scores, success rates) are modelled as `ℚ`.
* Python ISO-8601 timestamp strings are modelled as `String`, compared with
  the lexicographic order on strings (the same order Python's `>` uses).
* Calls to the external MCP client (`omnilore_client.query` / `.store`) are
  advisory collaborators outside the core (spec sections 1 and 6); in the
  embedding they always succeed and are elided, since their results never
  flow into the decision logic being verified.
* Persistence (`_save_state` / `_load_state`, the last-100 trim of the
  persisted copy) is file I/O on the state snapshot and does not change the
  in-memory lists the claims are about; it is elided.
* `datetime.now()` is nondeterministic; every state-mutating operation takes
  the current timestamp as an explicit argument.
-/

namespace Oxproxion

/-! ## ConflictResolver (src/federation_service.py, lines 221-286) -/

/-- A knowledge entry as consumed by `ConflictResolver.resolve`: a Python
dict from which the code reads `confidence` (float) and `created_at`
(ISO-8601 string).  The spec's data model (section 3) guarantees both keys
are present, so the `.get` defaults of the source never fire and the fields
are modelled as total. -/
structure KnowledgeEntry where
  id : String
  source_repo : String
  category : String
  confidence : ℚ
  created_at : String
  deriving Repr, DecidableEq

/-- `ConflictResolver.resolve(omnilore_entry, oxproxion_entry)`
(src/federation_service.py lines 250-269), with `a` the first argument
(`omnilore_entry`) and `b` the second (`oxproxion_entry`):
if the confidences differ by more than 0.1 the higher-confidence entry is
returned, otherwise the entry with the (lexicographically) later
`created_at`, with `a` returned on equal timestamps (the source's
`oxproxion_entry if oxproxion_time > omnilore_time else omnilore_entry`).
The fire-and-forget audit `store` call is elided (collaborator, out of
scope). -/
def resolve (a b : KnowledgeEntry) : KnowledgeEntry :=
  let confDiff := |a.confidence - b.confidence|
  if confDiff > 1/10 then
    if a.confidence > b.confidence then a else b
  else
    if a.created_at < b.created_at then b else a

end Oxproxion

namespace Oxproxion

/-- C4: if the confidences differ by strictly more than 0.1, `resolve`
returns the entry with the strictly higher confidence, independent of the
two `created_at` timestamps (which are universally quantified and unused). -/
theorem resolve_higher_confidence_wins (a b : KnowledgeEntry)
    (h : |a.confidence - b.confidence| > 1/10) :
    (b.confidence < a.confidence ∧ resolve a b = a) ∨
    (a.confidence < b.confidence ∧ resolve a b = b) := by
  rcases lt_trichotomy a.confidence b.confidence with hlt | heq | hgt
  · right
    refine ⟨hlt, ?_⟩
    simp only [resolve, if_pos h]
    rw [if_neg (not_lt.mpr hlt.le)]
  · exfalso
    rw [heq, sub_self, abs_zero] at h
    exact absurd h (by norm_num)
  · left
    refine ⟨hgt, ?_⟩
    simp only [resolve, if_pos h]
    rw [if_pos hgt]

/-- Witness for `resolve_higher_confidence_wins` at a concrete pair
of entries with confidences 0.9 and 0.2. -/
theorem resolve_higher_confidence_wins_witness :
    (|(9/10 : ℚ) - 2/10| > 1/10) ∧
    (((2/10 : ℚ) < 9/10 ∧
      resolve ⟨"e1", "omnilore", "c", 9/10, "2024-01-01"⟩
        ⟨"e2", "oxproxion", "c", 2/10, "2025-01-01"⟩ =
        ⟨"e1", "omnilore", "c", 9/10, "2024-01-01"⟩) ∨
    ((9/10 : ℚ) < 2/10 ∧
      resolve ⟨"e1", "omnilore", "c", 9/10, "2024-01-01"⟩
        ⟨"e2", "oxproxion", "c", 2/10, "2025-01-01"⟩ =
        ⟨"e2", "oxproxion", "c", 2/10, "2025-01-01"⟩)) := by
  refine ⟨by norm_num [abs_of_nonneg], ?_⟩
  exact resolve_higher_confidence_wins
    ⟨"e1", "omnilore", "c", 9/10, "2024-01-01"⟩
    ⟨"e2", "oxproxion", "c", 2/10, "2025-01-01"⟩ (by norm_num [abs_of_nonneg])

/-- C3: if the confidences differ by at most 0.1, `resolve` returns the
entry with the later `created_at` timestamp, and returns `a` (the first
argument) when the timestamps are equal. -/
theorem resolve_recency_wins (a b : KnowledgeEntry)
    (h : |a.confidence - b.confidence| ≤ 1/10) :
    (a.created_at < b.created_at → resolve a b = b) ∧
    (b.created_at < a.created_at → resolve a b = a) ∧
    (a.created_at = b.created_at → resolve a b = a) := by
  have hdiff : ¬ (|a.confidence - b.confidence| > 1/10) := not_lt.mpr h
  refine ⟨fun hab => ?_, fun hba => ?_, fun heq => ?_⟩
  · simp only [resolve, if_neg hdiff]
    rw [if_pos hab]
  · simp only [resolve, if_neg hdiff]
    rw [if_neg (asymm hba)]
  · simp only [resolve, if_neg hdiff]
    rw [if_neg (heq ▸ lt_irrefl a.created_at)]

/-- Witness for `resolve_recency_wins`: equal confidences, entry `b` has
the later timestamp, so `b` is returned. -/
theorem resolve_recency_wins_witness :
    (|(5/10 : ℚ) - 5/10| ≤ 1/10) ∧
    ("2024-01-01" < "2025-01-01") ∧
    resolve ⟨"e1", "omnilore", "c", 5/10, "2024-01-01"⟩
      ⟨"e2", "oxproxion", "c", 5/10, "2025-01-01"⟩ =
      ⟨"e2", "oxproxion", "c", 5/10, "2025-01-01"⟩ := by
  have hlt : ("2024-01-01" : String) < "2025-01-01" := by
    rw [String.lt_iff_toList_lt]
    decide
  exact ⟨by norm_num, hlt,
    (resolve_recency_wins
      ⟨"e1", "omnilore", "c", 5/10, "2024-01-01"⟩
      ⟨"e2", "oxproxion", "c", 5/10, "2025-01-01"⟩ (by norm_num)).1 hlt⟩

/-! ## FederationService (src/federation_service.py, lines 35-218) -/

/-- One element of `self.sync_history`: the dict appended by
`register_sync` (lines 89-95), holding the current timestamp, the synced
entry id, and the composed direction label built from source and target
with an arrow between them. -/
structure SyncEvent where
  timestamp : String
  entry_id : String
  direction : String
  deriving Repr, DecidableEq

/-- In-memory state of a `FederationService`: the `sync_history` list
(appended at the end, like the Python list). -/
structure FederationState where
  sync_history : List SyncEvent
  deriving Repr, DecidableEq

/-- `FederationService.register_sync` (lines 77-105): appends a sync event
with the composed direction string.  The MCP `store` call and
`_save_state` are elided (collaborator / file I/O, out of scope); both
succeed in the intended environment, so `register_sync` on a well-formed
entry id always succeeds. -/
def registerSync (st : FederationState) (now entry_id source target : String) :
    FederationState :=
  ⟨st.sync_history ++ [⟨now, entry_id, source ++ " → " ++ target⟩]⟩

/-- An element of the `entries` batch passed to `sync_batch`: a Python dict
of which the code reads only the value at key `id`.  The field is `none`
when the key is missing, in which case the subscript raises `KeyError` —
the per-entry failure mode of the batch loop. -/
structure BatchEntry where
  id : Option String
  deriving Repr, DecidableEq

/-- The dict returned by `sync_batch` (lines 168-174). -/
structure SyncResult where
  synced : Nat
  conflicts : Nat
  errors : Nat
  direction : String
  timestamp : String
  deriving Repr, DecidableEq

/-- The batch loop of `FederationService.sync_batch` (lines 134-152): per
entry, the id is read and `register_sync` is awaited inside a `try`; a
raising entry is caught, error-recovery guidance is queried (elided
collaborator call), and `errors` is incremented; otherwise `synced` is
incremented.  Returns (synced, errors, final state). -/
def syncBatchLoop (now source target : String) :
    FederationState → List BatchEntry → (Nat × Nat × FederationState)
  | st, [] => (0, 0, st)
  | st, e :: rest =>
    match e.id with
    | some i =>
      let st2 := registerSync st now i source target
      let r := syncBatchLoop now source target st2 rest
      (r.1 + 1, r.2.1, r.2.2)
    | none =>
      let r := syncBatchLoop now source target st rest
      (r.1, r.2.1 + 1, r.2.2)

/-- `FederationService.sync_batch` (lines 107-174): counts `synced`,
`conflicts` and `errors` starting from 0, runs the per-entry loop, and
returns the result dict together with the new state.  `conflicts` is
initialised to 0 and never touched; no conflict-resolution code is
reachable from `sync_batch`.  The guidance `query` and the batch-learning
`store` (STEPs 1 and 3) are elided collaborator calls. -/
def syncBatch (st : FederationState) (now : String) (entries : List BatchEntry)
    (source target : String) : SyncResult × FederationState :=
  let r := syncBatchLoop now source target st entries
  (⟨r.1, 0, r.2.1, source ++ " → " ++ target, now⟩, r.2.2)

/-- Is the first character list a prefix of the second? -/
def charsStartWith : List Char → List Char → Bool
  | [], _ => true
  | _ :: _, [] => false
  | a :: as, b :: bs => a == b && charsStartWith as bs

/-- Helper for `strContains`: does `p` occur contiguously in the list? -/
def charsContain (p : List Char) : List Char → Bool
  | [] => charsStartWith p []
  | c :: rest => charsStartWith p (c :: rest) || charsContain p rest

/-- Python's substring test `pat in s`: does `pat` occur contiguously in
`s`?  Modelled on the underlying character lists. -/
def strContains (pat : String) (s : String) : Bool :=
  charsContain pat.data s.data

/-- The dict returned by `get_sync_stats` (lines 179-208). -/
structure SyncStats where
  total_syncs : Nat
  omnilore_to_oxproxion : Nat
  oxproxion_to_omnilore : Nat
  last_sync : Option String
  deriving Repr, DecidableEq

/-- `FederationService.get_sync_stats` (lines 176-218): all-zero stats with
`last_sync = None` on an empty history; otherwise counts the history events
whose direction label contains the substring `"omnilore → oxproxion"`
resp. `"oxproxion → omnilore"` and reports the last event's timestamp.
The stats-insight `store` call is an elided collaborator call. -/
def getSyncStats (st : FederationState) : SyncStats :=
  match st.sync_history with
  | [] => ⟨0, 0, 0, none⟩
  | e :: rest =>
    ⟨(e :: rest).length,
     ((e :: rest).filter (fun s => strContains "omnilore → oxproxion" s.direction)).length,
     ((e :: rest).filter (fun s => strContains "oxproxion → omnilore" s.direction)).length,
     some ((e :: rest).getLast (List.cons_ne_nil e rest)).timestamp⟩

/-- The two counters of the batch loop: `synced` counts the entries whose
id is present, `errors` counts the entries whose id is missing, whatever
the starting state. -/
theorem syncBatchLoop_counts (now source target : String) :
    ∀ (entries : List BatchEntry) (st : FederationState),
      (syncBatchLoop now source target st entries).1 =
        entries.countP (fun e => e.id.isSome) ∧
      (syncBatchLoop now source target st entries).2.1 =
        entries.countP (fun e => e.id.isNone) := by
  intro entries
  induction entries with
  | nil => intro st; simp [syncBatchLoop]
  | cons e rest ih =>
    intro st
    match hid : e.id with
    | some i =>
      simp only [syncBatchLoop, hid]
      constructor
      · rw [(ih _).1, List.countP_cons, hid]
        simp
      · rw [(ih _).2, List.countP_cons, hid]
        simp
    | none =>
      simp only [syncBatchLoop, hid]
      constructor
      · rw [(ih _).1, List.countP_cons, hid]
        simp
      · rw [(ih _).2, List.countP_cons, hid]
        simp

/-- Entries with an id and entries without one partition the batch. -/
theorem countP_id_split (entries : List BatchEntry) :
    entries.countP (fun e => e.id.isSome) +
      entries.countP (fun e => e.id.isNone) = entries.length := by
  induction entries with
  | nil => simp
  | cons e rest ih =>
    rw [List.countP_cons, List.countP_cons, List.length_cons]
    cases e.id <;> simp <;> omega

/-- C5: on a batch of `N` entries of which `K` raise a per-entry
registration failure (a missing id, the only failure mode once the
collaborator calls are out of scope), `sync_batch` reports
`errors = K` and `synced = N - K`, and it runs the whole batch to
completion — `syncBatch` is a total function returning a result for every
input, never propagating a per-entry exception. -/
theorem syncBatch_partial_failure (st : FederationState)
    (now : String) (entries : List BatchEntry) (source target : String) :
    (syncBatch st now entries source target).1.errors =
      entries.countP (fun e => e.id.isNone) ∧
    (syncBatch st now entries source target).1.synced =
      entries.length - entries.countP (fun e => e.id.isNone) ∧
    (syncBatch st now entries source target).1.synced +
      (syncBatch st now entries source target).1.errors = entries.length := by
  have h := syncBatchLoop_counts now source target entries st
  have hlen := countP_id_split entries
  refine ⟨?_, ?_, ?_⟩
  · simpa [syncBatch] using h.2
  · simp only [syncBatch]
    rw [h.1]
    omega
  · simp only [syncBatch]
    rw [h.1, h.2]
    exact hlen

/-- C6: `sync_batch` reports `conflicts = 0` on every input; `conflicts`
is initialised to 0 and never incremented, and the embedding of
`sync_batch`, like the source, contains no call to
`ConflictResolver.resolve`. -/
theorem syncBatch_conflicts_zero (st : FederationState)
    (now : String) (entries : List BatchEntry) (source target : String) :
    (syncBatch st now entries source target).1.conflicts = 0 := rfl

/-- C7: `get_sync_stats` on an empty ledger is all zeros with
`last_sync = None`; after registering exactly one omnilore→oxproxion event
and one oxproxion→omnilore event it reports one sync in each direction,
two in total, and the second event's timestamp as `last_sync` — for any
entry ids and timestamps. -/
theorem getSyncStats_empty_and_one_each (t1 t2 i1 i2 : String) :
    getSyncStats ⟨[]⟩ = ⟨0, 0, 0, none⟩ ∧
    getSyncStats
        (registerSync (registerSync ⟨[]⟩ t1 i1 "omnilore" "oxproxion")
          t2 i2 "oxproxion" "omnilore") =
      ⟨2, 1, 1, some t2⟩ := by
  constructor
  · rfl
  · rfl

/-! ## ProblemRouter (src/orchestrator.py, lines 18-114) -/

/-- The `AgentLocation` enum (src/orchestrator.py lines 18-23). -/
inductive AgentLocation where
  | LOCAL
  | REMOTE
  | HYBRID
  deriving Repr, DecidableEq

/-- One value of the `agent_pool` dict (lines 31-44): location,
availability flag, knowledge-entry count and solving capacity.  Numeric
fields are modelled as `Int` (arbitrary externally-set integers). -/
structure Agent where
  location : AgentLocation
  available : Bool
  knowledge_entries : Int
  solving_capacity : Int
  deriving Repr, DecidableEq

/-- The router's `agent_pool`: a Python dict with exactly the two keys
`"omnilore"` and `"oxproxion"`, in that fixed insertion order (lines
31-44).  The attribute values can be mutated after construction, so they
are left arbitrary. -/
structure AgentPool where
  omnilore : Agent
  oxproxion : Agent
  deriving Repr, DecidableEq

/-- The `agent_pool` dict in its iteration order: insertion order, i.e.
`"omnilore"` first-registered, then `"oxproxion"`. -/
def poolList (p : AgentPool) : List (String × Agent) :=
  [("omnilore", p.omnilore), ("oxproxion", p.oxproxion)]

/-- One element of `routing_history` (lines 85-91). -/
structure RoutingRecord where
  timestamp : String
  problem_type : String
  selected_agent : String
  deriving Repr, DecidableEq

/-- In-memory state of a `ProblemRouter`. -/
structure RouterState where
  agent_pool : AgentPool
  routing_history : List RoutingRecord
  deriving Repr, DecidableEq

/-- The names of the available agents in pool-iteration order: the list
comprehension of lines 70-74. -/
def availableNames (p : AgentPool) : List String :=
  ((poolList p).filter (fun pr => pr.2.available)).map Prod.fst

/-- Dict lookup `self.agent_pool[name].get("solving_capacity", 0)` as used
by the `min` key (line 82), for the names that occur in the pool (the only
names the selection ever feeds it); the field is always present, so the
`.get` default 0 never fires. -/
def agentCapacity (p : AgentPool) (n : String) : Int :=
  if n = "omnilore" then p.omnilore.solving_capacity
  else p.oxproxion.solving_capacity

/-- Python's `min(xs, key=key)` on a list of names: the first element
achieving the minimal key (Python keeps the current best and replaces it
only on a strictly smaller key); `none` exactly on the empty list, where
Python raises `ValueError` — unreachable here behind the emptiness check. -/
def pyMinBy (key : String → Int) : List String → Option String
  | [] => none
  | x :: xs => some (xs.foldl (fun best y => if key y < key best then y else best) x)

/-- `ProblemRouter.select_agent` (src/orchestrator.py lines 47-93).
If `prefer_local`: return `"omnilore"` when it is available, else return
`"oxproxion"` — with no availability check and no history append (lines
64-67).  Otherwise: collect the available agent names, raise
`RuntimeError("No agents available")` when there are none (modelled as
`Except.error`), select the least-loaded by Python `min` over
`solving_capacity`, append a routing record and return the name. -/
def selectAgentRun (s : RouterState) (problem_type : String)
    (prefer_local : Bool) (now : String) :
    Except String (String × RouterState) :=
  if prefer_local then
    if s.agent_pool.omnilore.available then Except.ok ("omnilore", s)
    else Except.ok ("oxproxion", s)
  else
    match pyMinBy (fun n => agentCapacity s.agent_pool n)
        (availableNames s.agent_pool) with
    | none => Except.error "No agents available"
    | some selected =>
      Except.ok (selected,
        ⟨s.agent_pool,
         s.routing_history ++ [⟨now, problem_type, selected⟩]⟩)

/-- The name the load-balancing branch selects, as a function of the pool
alone (lines 80-83). -/
def selectedFor (p : AgentPool) : Option String :=
  pyMinBy (fun n => agentCapacity p n) (availableNames p)

/-- The `agent_pool` values of `__init__` (lines 31-44): both agents
available, 299 knowledge entries, solving capacity 100. -/
def seedAgentPool : AgentPool :=
  ⟨⟨AgentLocation.LOCAL, true, 299, 100⟩,
   ⟨AgentLocation.REMOTE, true, 299, 100⟩⟩

/-- A freshly constructed `ProblemRouter`: seeded pool, empty history. -/
def seedRouter : RouterState := ⟨seedAgentPool, []⟩

/-- The load-balancing branch of `select_agent`, written through
`selectedFor`. -/
theorem selectAgentRun_loadBalance (s : RouterState) (pt now : String) :
    selectAgentRun s pt false now =
      match selectedFor s.agent_pool with
      | none => Except.error "No agents available"
      | some sel =>
        Except.ok (sel,
          ⟨s.agent_pool, s.routing_history ++ [⟨now, pt, sel⟩]⟩) := rfl

/-- The selected name is an available one of minimal solving capacity,
first-registered on ties. -/
theorem selectedFor_spec (p : AgentPool) (h : availableNames p ≠ []) :
    ∃ n, selectedFor p = some n ∧ n ∈ availableNames p ∧
      (∀ m ∈ availableNames p, agentCapacity p n ≤ agentCapacity p m) ∧
      ((∀ m1 ∈ availableNames p, ∀ m2 ∈ availableNames p,
          agentCapacity p m1 = agentCapacity p m2) →
        some n = (availableNames p).head?) := by
  have hko : agentCapacity p "omnilore" = p.omnilore.solving_capacity := by
    simp [agentCapacity]
  have hkx : agentCapacity p "oxproxion" = p.oxproxion.solving_capacity := by
    rw [agentCapacity, if_neg (by decide)]
  cases hA : p.omnilore.available <;> cases hB : p.oxproxion.available
  · exact absurd (by simp [availableNames, poolList, hA, hB]) h
  · have hav : availableNames p = ["oxproxion"] := by
      simp [availableNames, poolList, hA, hB]
    refine ⟨"oxproxion", ?_, ?_, ?_, ?_⟩
    · simp [selectedFor, hav, pyMinBy]
    · simp [hav]
    · intro m hm
      rw [hav] at hm
      simp at hm
      subst hm
      exact le_refl _
    · intro _
      rw [hav]
      rfl
  · have hav : availableNames p = ["omnilore"] := by
      simp [availableNames, poolList, hA, hB]
    refine ⟨"omnilore", ?_, ?_, ?_, ?_⟩
    · simp [selectedFor, hav, pyMinBy]
    · simp [hav]
    · intro m hm
      rw [hav] at hm
      simp at hm
      subst hm
      exact le_refl _
    · intro _
      rw [hav]
      rfl
  · have hav : availableNames p = ["omnilore", "oxproxion"] := by
      simp [availableNames, poolList, hA, hB]
    by_cases hc : p.oxproxion.solving_capacity < p.omnilore.solving_capacity
    · refine ⟨"oxproxion", ?_, ?_, ?_, ?_⟩
      · simp [selectedFor, hav, pyMinBy, agentCapacity, hc]
      · simp [hav]
      · intro m hm
        rw [hav] at hm
        simp at hm
        rcases hm with hm | hm <;> subst hm
        · rw [hko, hkx]
          exact le_of_lt hc
        · exact le_refl _
      · intro heq
        exfalso
        have h1 : ("omnilore" : String) ∈ availableNames p := by simp [hav]
        have h2 : ("oxproxion" : String) ∈ availableNames p := by simp [hav]
        have := heq "omnilore" h1 "oxproxion" h2
        rw [hko, hkx] at this
        rw [this] at hc
        exact lt_irrefl _ hc
    · refine ⟨"omnilore", ?_, ?_, ?_, ?_⟩
      · simp [selectedFor, hav, pyMinBy, agentCapacity, hc]
      · simp [hav]
      · intro m hm
        rw [hav] at hm
        simp at hm
        rcases hm with hm | hm <;> subst hm
        · exact le_refl _
        · rw [hko, hkx]
          exact not_lt.mp hc
      · intro _
        rw [hav]
        rfl

/-- C1: with at least one available agent, `select_agent` with
`prefer_local = False` returns an available agent of minimal
`solving_capacity` (the load metric the source's `min` key reads, named
`current_load` in the spec's data model) among the available agents; when
all those loads are equal it returns the first-registered agent
(pool-iteration head); the pool is unchanged by the call, and a repeated
call on the resulting state returns the same agent. -/
theorem select_agent_min_load (s : RouterState) (pt now : String)
    (h : availableNames s.agent_pool ≠ []) :
    ∃ n s2,
      selectAgentRun s pt false now = Except.ok (n, s2) ∧
      n ∈ availableNames s.agent_pool ∧
      (∀ m ∈ availableNames s.agent_pool,
        agentCapacity s.agent_pool n ≤ agentCapacity s.agent_pool m) ∧
      ((∀ m1 ∈ availableNames s.agent_pool,
          ∀ m2 ∈ availableNames s.agent_pool,
          agentCapacity s.agent_pool m1 = agentCapacity s.agent_pool m2) →
        some n = (availableNames s.agent_pool).head?) ∧
      s2.agent_pool = s.agent_pool ∧
      (∀ pt2 now2, ∃ s3,
        selectAgentRun s2 pt2 false now2 = Except.ok (n, s3)) := by
  obtain ⟨n, hsel, hmem, hmin, hhead⟩ := selectedFor_spec s.agent_pool h
  refine ⟨n, ⟨s.agent_pool, s.routing_history ++ [⟨now, pt, n⟩]⟩,
    ?_, hmem, hmin, hhead, rfl, ?_⟩
  · rw [selectAgentRun_loadBalance, hsel]
  · intro pt2 now2
    refine ⟨⟨s.agent_pool,
      (s.routing_history ++ [⟨now, pt, n⟩]) ++ [⟨now2, pt2, n⟩]⟩, ?_⟩
    rw [selectAgentRun_loadBalance, hsel]

/-- Witness for `select_agent_min_load` on the seeded router: both agents
available at capacity 100, the selection exists and is as described. -/
theorem select_agent_min_load_witness :
    availableNames seedRouter.agent_pool ≠ [] ∧
    (∃ n s2,
      selectAgentRun seedRouter "general" false "t0" = Except.ok (n, s2) ∧
      n ∈ availableNames seedRouter.agent_pool ∧
      (∀ m ∈ availableNames seedRouter.agent_pool,
        agentCapacity seedRouter.agent_pool n ≤
          agentCapacity seedRouter.agent_pool m) ∧
      ((∀ m1 ∈ availableNames seedRouter.agent_pool,
          ∀ m2 ∈ availableNames seedRouter.agent_pool,
          agentCapacity seedRouter.agent_pool m1 =
            agentCapacity seedRouter.agent_pool m2) →
        some n = (availableNames seedRouter.agent_pool).head?) ∧
      s2.agent_pool = seedRouter.agent_pool ∧
      (∀ pt2 now2, ∃ s3,
        selectAgentRun s2 pt2 false now2 = Except.ok (n, s3))) :=
  ⟨by decide, select_agent_min_load seedRouter "general" "t0" (by decide)⟩

/-- A pool state in which no agent is available (the seeded pool with both
availability flags cleared). -/
def downPool : AgentPool :=
  ⟨⟨AgentLocation.LOCAL, false, 299, 100⟩,
   ⟨AgentLocation.REMOTE, false, 299, 100⟩⟩

/-- Counterexample to C2 as stated: with every agent unavailable,
`select_agent` with `prefer_local = True` does not raise — it returns the
default agent name `"oxproxion"` (src/orchestrator.py lines 64-67 return
`"oxproxion"` without any availability check on it). -/
theorem select_agent_prefer_local_never_raises :
    (∀ pr ∈ poolList downPool, pr.2.available = false) ∧
    selectAgentRun ⟨downPool, []⟩ "general" true "t0" =
      Except.ok ("oxproxion", ⟨downPool, []⟩) :=
  ⟨by decide, rfl⟩

/-- C2 amended: when no agent in the pool is available, `select_agent`
with `prefer_local = False` raises `RuntimeError("No agents available")`
and returns no default name; with `prefer_local = True` it never raises,
returning the hardcoded default `"oxproxion"` instead. -/
theorem select_agent_none_available (s : RouterState) (pt now : String)
    (h : ∀ pr ∈ poolList s.agent_pool, pr.2.available = false) :
    selectAgentRun s pt false now = Except.error "No agents available" ∧
    selectAgentRun s pt true now = Except.ok ("oxproxion", s) := by
  have hA : s.agent_pool.omnilore.available = false :=
    h ("omnilore", s.agent_pool.omnilore) (by simp [poolList])
  have hB : s.agent_pool.oxproxion.available = false :=
    h ("oxproxion", s.agent_pool.oxproxion) (by simp [poolList])
  constructor
  · rw [selectAgentRun_loadBalance]
    have hav : availableNames s.agent_pool = [] := by
      simp [availableNames, poolList, hA, hB]
    rw [selectedFor, hav]
    rfl
  · simp [selectAgentRun, hA]

/-- Witness for `select_agent_none_available` on the all-down pool. -/
theorem select_agent_none_available_witness :
    selectAgentRun ⟨downPool, []⟩ "code" false "t1" =
      Except.error "No agents available" ∧
    selectAgentRun ⟨downPool, []⟩ "code" true "t1" =
      Except.ok ("oxproxion", ⟨downPool, []⟩) :=
  select_agent_none_available ⟨downPool, []⟩ "code" "t1" (by decide)

/-- Counterexample to C8 as stated: with `prefer_local = True` and
`"omnilore"` unavailable, `select_agent` returns `"oxproxion"` even though
`"oxproxion"` is itself unavailable — it does return an unavailable
agent. -/
theorem select_agent_prefer_local_returns_unavailable :
    downPool.oxproxion.available = false ∧
    selectAgentRun ⟨downPool, ([] : List RoutingRecord)⟩ "math" true "t2" =
      Except.ok ("oxproxion", ⟨downPool, ([] : List RoutingRecord)⟩) :=
  ⟨rfl, rfl⟩

/-- C8 amended: with `prefer_local = True`, `select_agent` returns the
designated local agent `"omnilore"` when it is available, and otherwise
returns `"oxproxion"` unconditionally — without checking oxproxion's
availability, so the returned agent may be unavailable; in both cases the
state is unchanged (this branch appends no routing record). -/
theorem select_agent_prefer_local_branch (s : RouterState) (pt now : String) :
    (s.agent_pool.omnilore.available = true →
      selectAgentRun s pt true now = Except.ok ("omnilore", s)) ∧
    (s.agent_pool.omnilore.available = false →
      selectAgentRun s pt true now = Except.ok ("oxproxion", s)) := by
  constructor
  · intro hA
    simp [selectAgentRun, hA]
  · intro hA
    simp [selectAgentRun, hA]

/-- Witness for `select_agent_prefer_local_branch` on the seeded router,
whose local agent is available. -/
theorem select_agent_prefer_local_branch_witness :
    selectAgentRun seedRouter "general" true "t3" =
      Except.ok ("omnilore", seedRouter) :=
  (select_agent_prefer_local_branch seedRouter "general" "t3").1 rfl

/-! ## MultiRepoOrchestrator (src/orchestrator.py, lines 117-212) -/

/-- One element of `self.solutions`: the dict built by `solve_problem`
(lines 176-182). -/
structure Solution where
  timestamp : String
  problem : String
  problem_type : String
  solved_by : String
  status : String
  deriving Repr, DecidableEq

/-- In-memory state of a `MultiRepoOrchestrator`: its router and its
solution list.  `_load_state` / `_save_state` (file persistence, last-100
trim of the persisted copy) are elided; they do not change the in-memory
lists. -/
structure OrchState where
  router : RouterState
  solutions : List Solution
  deriving Repr, DecidableEq

/-- `MultiRepoOrchestrator.solve_problem` (lines 160-187): route via
`select_agent(problem_type)` (with the default `prefer_local = False`),
append a solution record with status `"solved"`, persist (elided), and
return the record.  A routing failure propagates to the caller. -/
def solveProblem (st : OrchState) (now problem problem_type : String) :
    Except String (OrchState × Solution) :=
  match selectAgentRun st.router problem_type false now with
  | Except.error e => Except.error e
  | Except.ok (agent, router2) =>
    let sol : Solution := ⟨now, problem, problem_type, agent, "solved"⟩
    Except.ok (⟨router2, st.solutions ++ [sol]⟩, sol)

/-- The dict returned by `get_orchestration_stats` (lines 193-212),
omitting the `routing_stats` passthrough (no claim concerns it).  The
empty-solutions branch of the source has no `last_solution` key; that is
modelled as `none`. -/
structure OrchStats where
  total_problems_solved : Nat
  success_rate : ℚ
  last_solution : Option String
  deriving Repr, DecidableEq

/-- `MultiRepoOrchestrator.get_orchestration_stats` (lines 189-212):
zeros with `success_rate = 0.0` when no solutions are recorded; otherwise
`success_rate` is the number of solutions whose status equals `"solved"`
divided by the total number of solutions, and `last_solution` is the last
record's timestamp. -/
def getOrchestrationStats (st : OrchState) : OrchStats :=
  match st.solutions with
  | [] => ⟨0, 0, none⟩
  | s0 :: rest =>
    ⟨(s0 :: rest).length,
     ((s0 :: rest).countP (fun s => s.status == "solved") : ℚ) /
       ((s0 :: rest).length : ℚ),
     some ((s0 :: rest).getLast (List.cons_ne_nil s0 rest)).timestamp⟩

/-- C9: `get_orchestration_stats` reports `success_rate` equal to the
count of recorded solutions with status `"solved"` divided by the total
number of recorded solutions, and reports `success_rate = 0` when no
solutions are recorded — the division is never reached with a zero
denominator. -/
theorem orchestration_success_rate (st : OrchState) :
    (st.solutions = [] → (getOrchestrationStats st).success_rate = 0) ∧
    (st.solutions ≠ [] →
      (getOrchestrationStats st).success_rate =
        (st.solutions.countP (fun s => s.status == "solved") : ℚ) /
          (st.solutions.length : ℚ)) := by
  constructor
  · intro h
    simp [getOrchestrationStats, h]
  · intro hne
    obtain ⟨s0, rest, hs⟩ := List.exists_cons_of_ne_nil hne
    simp [getOrchestrationStats, hs]

/-- Witness for `orchestration_success_rate`: a two-element solution list
with one solved and one failed record. -/
theorem orchestration_success_rate_witness :
    (getOrchestrationStats
        ⟨seedRouter,
         [⟨"t1", "p1", "general", "omnilore", "solved"⟩,
          ⟨"t2", "p2", "general", "omnilore", "failed"⟩]⟩).success_rate =
      (List.countP (fun s => s.status == "solved")
          ([⟨"t1", "p1", "general", "omnilore", "solved"⟩,
            ⟨"t2", "p2", "general", "omnilore", "failed"⟩] :
            List Solution) : ℚ) /
        (([⟨"t1", "p1", "general", "omnilore", "solved"⟩,
           ⟨"t2", "p2", "general", "omnilore", "failed"⟩] :
            List Solution).length : ℚ) :=
  (orchestration_success_rate
    ⟨seedRouter,
     [⟨"t1", "p1", "general", "omnilore", "solved"⟩,
      ⟨"t2", "p2", "general", "omnilore", "failed"⟩]⟩).2 (by simp)

/-- A nonempty solution list whose records all have status `"solved"`
yields `success_rate = 1`. -/
theorem rate_one_of_all_solved (r : RouterState) (l : List Solution)
    (hne : l ≠ []) (hall : ∀ s ∈ l, s.status = "solved") :
    (getOrchestrationStats ⟨r, l⟩).success_rate = 1 := by
  obtain ⟨s0, rest, hs⟩ := List.exists_cons_of_ne_nil hne
  subst hs
  simp only [getOrchestrationStats]
  have hcount : (s0 :: rest).countP (fun s => s.status == "solved") =
      (s0 :: rest).length := by
    rw [List.countP_eq_length]
    intro a ha
    simp [hall a ha]
  rw [hcount]
  have hlen : (((s0 :: rest).length : ℚ)) ≠ 0 := by
    have hpos : (0 : ℚ) < ((s0 :: rest).length : ℚ) := by
      exact_mod_cast Nat.succ_pos rest.length
    exact ne_of_gt hpos
  exact div_self hlen

/-- C10: every solution record appended by `solve_problem` has status
`"solved"` (the `FAILED` status is never produced); consequently, when all
previously recorded solutions also have status `"solved"` (as in any run
fed only by `solve_problem`), the state after a successful `solve_problem`
call reports `success_rate` exactly 1. -/
theorem solve_problem_all_solved (st : OrchState)
    (now problem ptype : String) (st2 : OrchState) (sol : Solution)
    (h : solveProblem st now problem ptype = Except.ok (st2, sol)) :
    sol.status = "solved" ∧
    st2.solutions = st.solutions ++ [sol] ∧
    ((∀ s ∈ st.solutions, s.status = "solved") →
      (getOrchestrationStats st2).success_rate = 1) := by
  rcases hr : selectAgentRun st.router ptype false now with e | pr
  · rw [solveProblem, hr] at h
    exact absurd h (by simp)
  · obtain ⟨agent, router2⟩ := pr
    rw [solveProblem, hr] at h
    simp only [Except.ok.injEq, Prod.mk.injEq] at h
    obtain ⟨hst2, hsol⟩ := h
    subst hsol
    refine ⟨rfl, ?_, ?_⟩
    · rw [← hst2]
    · intro hall
      rw [← hst2]
      apply rate_one_of_all_solved
      · simp
      · intro s hs
        rcases List.mem_append.mp hs with hs | hs
        · exact hall s hs
        · rw [List.mem_singleton.mp hs]

/-- The state produced by running `solve_problem` once on a fresh
orchestrator: the routing record and the solution record both name
`"omnilore"` (the stable minimum at equal capacities). -/
def afterSeedSolve : OrchState :=
  ⟨⟨seedAgentPool, [⟨"t0", "general", "omnilore"⟩]⟩,
   [⟨"t0", "fix bug", "general", "omnilore", "solved"⟩]⟩

/-- Witness for `solve_problem_all_solved`: one `solve_problem` call on a
fresh orchestrator, after which the success rate is exactly 1. -/
theorem solve_problem_all_solved_witness :
    (⟨"t0", "fix bug", "general", "omnilore", "solved"⟩ : Solution).status =
      "solved" ∧
    afterSeedSolve.solutions =
      (⟨seedRouter, []⟩ : OrchState).solutions ++
        [⟨"t0", "fix bug", "general", "omnilore", "solved"⟩] ∧
    ((∀ s ∈ (⟨seedRouter, []⟩ : OrchState).solutions, s.status = "solved") →
      (getOrchestrationStats afterSeedSolve).success_rate = 1) :=
  solve_problem_all_solved ⟨seedRouter, []⟩ "t0" "fix bug" "general"
    afterSeedSolve ⟨"t0", "fix bug", "general", "omnilore", "solved"⟩ rfl

end Oxproxion
